import Mathlib

/-!
Verification development for the QUICKSHOW show-ingestion and scheduling
pipeline (src/server/controllers/showController.js).

The controller is embedded shallowly:
  * the document store is an explicit state (`DB`) holding the two
    collections (movies, shows) as lists in insertion order;
  * the external metadata provider (TMDB) is an oracle (`Env`) mapping a
    movie id to the result of the details fetch and of the credits fetch;
  * JS timestamps are `Int` milliseconds since the Unix epoch; the JS
    `Date` constructor on an ISO `YYYY-MM-DDTHH:MM[:SS]` string is embedded
    by `jsParseDateTime`, returning `none` for Invalid Date;
  * each handler becomes a pure function from the request and the state to
    the JSON response (success flag, message, HTTP status) and the new state.
-/

namespace Quickshow

/-- Opaque stand-in for JSON payload values (genre records, cast entries,
numeric scores) whose internal structure none of the verified properties
inspects. -/
abbrev JsonValue := String

/-! ## JS Date embedding

`new Date(s)` for an ISO 8601 date-time string without offset.  The model
covers the `YYYY-MM-DDTHH:MM` and `YYYY-MM-DDTHH:MM:SS` forms produced by
`addShow`'s template string, evaluated in UTC; any other string is treated
as Invalid Date (`none`). -/

def digitVal (c : Char) : Nat := c.toNat - 48

def isLeapYear (y : Nat) : Bool :=
  (y % 4 == 0 && y % 100 != 0) || y % 400 == 0

def daysInMonth (y mo : Nat) : Nat :=
  if mo == 2 then (if isLeapYear y then 29 else 28)
  else if mo == 4 || mo == 6 || mo == 9 || mo == 11 then 30
  else 31

/-- Days from 1970-01-01 to the civil date y-mo-d (proleptic Gregorian). -/
def daysFromCivil (y mo d : Nat) : Int :=
  let yy : Int := if mo ≤ 2 then (y : Int) - 1 else (y : Int)
  let era : Int := yy / 400
  let yoe : Int := yy - era * 400
  let mp : Int := ((mo : Int) + 9) % 12
  let doy : Int := (153 * mp + 2) / 5 + (d : Int) - 1
  let doe : Int := yoe * 365 + yoe / 4 - yoe / 100 + doy
  era * 146097 + doe - 719468

/-- Range-check the components and build the millisecond timestamp;
`none` is JS Invalid Date.  JS accepts hour 24 only as 24:00:00. -/
def buildDateTime (y mo d h mi s : Nat) : Option Int :=
  if 1 ≤ mo && mo ≤ 12 && 1 ≤ d && d ≤ daysInMonth y mo
      && ((h ≤ 23 && mi ≤ 59 && s ≤ 59) || (h == 24 && mi == 0 && s == 0)) then
    some (daysFromCivil y mo d * 86400000
      + ((h * 3600000 + mi * 60000 + s * 1000 : Nat) : Int))
  else none

def jsParseDateTime (str : String) : Option Int :=
  match str.data with
  | [y1, y2, y3, y4, '-', o1, o2, '-', d1, d2, 'T', h1, h2, ':', n1, n2] =>
    if [y1, y2, y3, y4, o1, o2, d1, d2, h1, h2, n1, n2].all Char.isDigit then
      buildDateTime
        (digitVal y1 * 1000 + digitVal y2 * 100 + digitVal y3 * 10 + digitVal y4)
        (digitVal o1 * 10 + digitVal o2) (digitVal d1 * 10 + digitVal d2)
        (digitVal h1 * 10 + digitVal h2) (digitVal n1 * 10 + digitVal n2) 0
    else none
  | [y1, y2, y3, y4, '-', o1, o2, '-', d1, d2, 'T', h1, h2, ':', n1, n2, ':', s1, s2] =>
    if [y1, y2, y3, y4, o1, o2, d1, d2, h1, h2, n1, n2, s1, s2].all Char.isDigit then
      buildDateTime
        (digitVal y1 * 1000 + digitVal y2 * 100 + digitVal y3 * 10 + digitVal y4)
        (digitVal o1 * 10 + digitVal o2) (digitVal d1 * 10 + digitVal d2)
        (digitVal h1 * 10 + digitVal h2) (digitVal n1 * 10 + digitVal n2)
        (digitVal s1 * 10 + digitVal s2)
    else none
  | _ => none

/-- UTC calendar-day number of a timestamp: two timestamps have the same
`toISOString().split("T")[0]` date portion iff they have the same floor
day number (86400000 ms per UTC day). -/
def utcDay (t : Int) : Int := Int.fdiv t 86400000

/-! ## Retry policy (axios-retry configuration, showController.js lines 7-21)

An axios error either carries a response (`response = some status`) or not,
and may carry a Node error code.  `isNetworkError` / `isRetryableError` are
the predicates exported by the axios-retry dependency, embedded from that
library's stable published semantics; `isRetryAllowed` is the is-retry-allowed
package's code denylist check used by `isNetworkError`. -/

structure AxiosError where
  code : Option String
  response : Option Nat
deriving DecidableEq

def retryDenyList : List String :=
  ["ENOTFOUND", "ENETUNREACH",
   "UNABLE_TO_GET_ISSUER_CERT", "UNABLE_TO_GET_CRL",
   "UNABLE_TO_DECRYPT_CERT_SIGNATURE", "UNABLE_TO_DECRYPT_CRL_SIGNATURE",
   "UNABLE_TO_DECODE_ISSUER_PUBLIC_KEY", "CERT_SIGNATURE_FAILURE",
   "CRL_SIGNATURE_FAILURE", "CERT_NOT_YET_VALID", "CERT_HAS_EXPIRED",
   "CRL_NOT_YET_VALID", "CRL_HAS_EXPIRED", "ERROR_IN_CERT_NOT_BEFORE_FIELD",
   "ERROR_IN_CERT_NOT_AFTER_FIELD", "ERROR_IN_CRL_LAST_UPDATE_FIELD",
   "ERROR_IN_CRL_NEXT_UPDATE_FIELD", "OUT_OF_MEM",
   "DEPTH_ZERO_SELF_SIGNED_CERT", "SELF_SIGNED_CERT_IN_CHAIN",
   "UNABLE_TO_GET_ISSUER_CERT_LOCALLY", "UNABLE_TO_VERIFY_LEAF_SIGNATURE",
   "CERT_CHAIN_TOO_LONG", "CERT_REVOKED", "INVALID_CA", "PATH_LENGTH_EXCEEDED",
   "INVALID_PURPOSE", "CERT_UNTRUSTED", "CERT_REJECTED", "HOSTNAME_MISMATCH"]

def isRetryAllowed (e : AxiosError) : Bool :=
  !(retryDenyList.contains (e.code.getD ""))

def isNetworkError (e : AxiosError) : Bool :=
  e.response.isNone && e.code.isSome
    && !(e.code == some "ERR_CANCELED") && !(e.code == some "ECONNABORTED")
    && isRetryAllowed e

def isRetryableError (e : AxiosError) : Bool :=
  !(e.code == some "ECONNABORTED")
    && (e.response.isNone
        || (match e.response with
            | some st => decide (500 ≤ st) && decide (st ≤ 599)
            | none => false))

/-- The `retries: 3` field of the axios-retry configuration. -/
def axiosRetryRetries : Nat := 3

/-- The `retryDelay` field: `(retryCount) => retryCount * 1000`. -/
def retryDelay (retryCount : Nat) : Nat := retryCount * 1000

/-- The `retryCondition` field, line for line. -/
def retryCondition (error : AxiosError) : Bool :=
  isNetworkError error
    || isRetryableError error
    || error.code == some "ECONNRESET"
    || (match error.response with
        | some st => [429, 500, 502, 503, 504].contains st
        | none => false)

/-- The claim's retry set, written from the spec's words: network-level
errors (connection reset, no response) and statuses {429, 500, 502, 503,
504}; kept separate from `retryCondition` so the two can be compared. -/
def claimedRetrySet (e : AxiosError) : Bool :=
  e.response.isNone
    || e.code == some "ECONNRESET"
    || (match e.response with
        | some st => [429, 500, 502, 503, 504].contains st
        | none => false)

/-! ## Data model -/

structure Movie where
  _id : String
  title : String
  overview : String
  poster_path : String
  backdrop_path : String
  genres : List JsonValue
  casts : List JsonValue
  release_date : String
  original_language : String
  tagline : String
  vote_average : JsonValue
  runtime : JsonValue
deriving DecidableEq

/-- A show document as built by `addShow` before insertion; `showDateTime`
is `none` when `new Date(...)` produced an Invalid Date. -/
structure PendingShow where
  movie : String
  showDateTime : Option Int
  showPrice : Int
  occupiedSeats : List (String × String)
deriving DecidableEq

/-- A persisted show; `_id` is assigned by the storage layer at insertion,
modelled as the document's position in the collection. -/
structure ShowRec where
  _id : Nat
  movie : String
  showDateTime : Int
  showPrice : Int
  occupiedSeats : List (String × String)
deriving DecidableEq

structure DB where
  movies : List Movie
  shows : List ShowRec
deriving DecidableEq

/-- The JSON document returned by the TMDB movie-details endpoint
(fields as consumed by `addShow`; `tagline` may be missing). -/
structure TmdbDetails where
  title : String
  overview : String
  poster_path : String
  backdrop_path : String
  genres : List JsonValue
  release_date : String
  original_language : String
  tagline : Option String
  vote_average : JsonValue
  runtime : JsonValue
deriving DecidableEq

/-- The TMDB movie-credits endpoint document. -/
structure TmdbCredits where
  cast : List JsonValue
deriving DecidableEq

/-- The external metadata provider: result of `makeTmdbRequest` for the
details URL and the credits URL of each movie id. -/
structure Env where
  fetchDetails : String → Except String TmdbDetails
  fetchCredits : String → Except String TmdbCredits

/-- One entry of `showsInput`: a date with its time-of-day strings. -/
structure ShowInputEntry where
  date : String
  time : List String
deriving DecidableEq

/-- The `req.body` of `addShow`; `none` models an absent/null field. -/
structure AddShowReq where
  movieId : Option String
  showsInput : Option (List ShowInputEntry)
  showPrice : Option Int
deriving DecidableEq

/-- JSON response of a handler: HTTP status (200 unless set explicitly),
success flag and message, plus the number of TMDB calls the handler made
(instrumentation for the frame claims). -/
structure AddShowResult where
  status : Nat
  success : Bool
  message : String
  tmdbCalls : Nat
deriving DecidableEq

/-! ## addShow (showController.js lines 65-127) -/

/-- JS falsiness of the destructured `movieId` (undefined, null, ""). -/
def strFalsy : Option String → Bool
  | none => true
  | some s => s == ""

/-- JS falsiness of the destructured `showPrice` (undefined, null, 0). -/
def intFalsy : Option Int → Bool
  | none => true
  | some n => n == 0

/-- `Promise.all` over the two fetches: both must succeed, the first
rejection aborts the pair. -/
def promiseAll2 (a : Except String TmdbDetails) (b : Except String TmdbCredits) :
    Except String (TmdbDetails × TmdbCredits) :=
  match a with
  | .error e => .error e
  | .ok x =>
    match b with
    | .error e => .error e
    | .ok y => .ok (x, y)

/-- The `movieDetailsToSave` object literal (lines 86-99):
cast truncated to the first 10 entries, tagline defaulted to "". -/
def movieDetailsToSave (movieId : String) (d : TmdbDetails) (c : TmdbCredits) : Movie :=
  { _id := movieId
    title := d.title
    overview := d.overview
    poster_path := d.poster_path
    backdrop_path := d.backdrop_path
    genres := d.genres
    casts := c.cast.take 10
    release_date := d.release_date
    original_language := d.original_language
    tagline := d.tagline.getD ""
    vote_average := d.vote_average
    runtime := d.runtime }

/-- The `showsToCreate` expansion (lines 105-117): for every entry and every
time string, one document `{movie, showDateTime: new Date(date + "T" + time),
showPrice, occupiedSeats: empty}`, in input order. -/
def expandShows (movieId : String) (showPrice : Int)
    (showsInput : List ShowInputEntry) : List PendingShow :=
  showsInput.flatMap (fun entry =>
    entry.time.map (fun t =>
      { movie := movieId
        showDateTime := jsParseDateTime (entry.date ++ "T" ++ t)
        showPrice := showPrice
        occupiedSeats := [] }))

/-- Turn a pending document into a persisted one, the storage layer
assigning ids in insertion order. -/
def persistShow (baseId : Nat) (p : Nat × PendingShow) : ShowRec :=
  { _id := baseId + p.1
    movie := p.2.movie
    showDateTime := p.2.showDateTime.getD 0
    showPrice := p.2.showPrice
    occupiedSeats := p.2.occupiedSeats }

/-- Modelled from the spec: the `Show.insertMany` batch primitive of the
storage layer (the Show schema module `src/server/models/Show.js` is not
under src/).  Per section 3 of the spec, a malformed time string produces an
invalid date value that is a reportable error condition, not a silently
persisted state: the batch insert validates every document and rejects the
whole batch when any `showDateTime` is Invalid Date, inserting nothing. -/
def insertMany (store : List ShowRec) (docs : List PendingShow) :
    Except String (List ShowRec) :=
  if docs.all (fun d => d.showDateTime.isSome) then
    .ok (store ++ docs.enum.map (persistShow store.length))
  else
    .error "Show validation failed: showDateTime cast to date failed"

/-- Lines 105-122: expansion, optional bulk insert, success response.
`calls` carries the number of TMDB calls already made. -/
def addShowInsertPhase (db : DB) (movieId : String)
    (showsInput : List ShowInputEntry) (showPrice : Int) (calls : Nat) :
    AddShowResult × DB :=
  if (expandShows movieId showPrice showsInput).length > 0 then
    match insertMany db.shows (expandShows movieId showPrice showsInput) with
    | .ok newShows =>
      ({ status := 200, success := true, message := "Show added successfully",
         tmdbCalls := calls }, { db with shows := newShows })
    | .error e =>
      ({ status := 200, success := false, message := e, tmdbCalls := calls }, db)
  else
    ({ status := 200, success := true, message := "Show added successfully",
       tmdbCalls := calls }, db)

/-- The `addShow` handler (lines 65-127): validate the body, find the movie
by id, otherwise fetch details and credits in parallel and create it, then
expand and insert the shows; any thrown error is caught and returned as a
`success: false` response with the error's message. -/
def addShow (env : Env) (db : DB) (req : AddShowReq) : AddShowResult × DB :=
  if strFalsy req.movieId || req.showsInput.isNone || intFalsy req.showPrice then
    ({ status := 400, success := false,
       message := "Missing required fields (movieId, showsInput, showPrice)",
       tmdbCalls := 0 }, db)
  else
    match db.movies.find? (fun m => m._id == req.movieId.getD "") with
    | some _ =>
      addShowInsertPhase db (req.movieId.getD "") (req.showsInput.getD [])
        (req.showPrice.getD 0) 0
    | none =>
      match promiseAll2 (env.fetchDetails (req.movieId.getD ""))
          (env.fetchCredits (req.movieId.getD "")) with
      | .error e =>
        ({ status := 200, success := false, message := e, tmdbCalls := 2 }, db)
      | .ok (details, credits) =>
        addShowInsertPhase
          { db with movies :=
              db.movies ++ [movieDetailsToSave (req.movieId.getD "") details credits] }
          (req.movieId.getD "") (req.showsInput.getD []) (req.showPrice.getD 0) 2

/-! ## getShows (lines 130-142) -/

/-- JS `new Set(xs)` converted back to an array, with an accumulator of the
elements already emitted: first occurrence of each element kept, in
insertion order. -/
def jsSetAux [DecidableEq α] (seen : List α) : List α → List α
  | [] => []
  | a :: l => if a ∈ seen then jsSetAux seen l else a :: jsSetAux (a :: seen) l

def jsSetOfList [DecidableEq α] (l : List α) : List α := jsSetAux [] l

/-- Stable insertion of one element into a list sorted by `le` (helper for
the storage layer's sort). -/
def insertSorted (le : α → α → Bool) (a : α) : List α → List α
  | [] => [a]
  | b :: l => if le a b then a :: b :: l else b :: insertSorted le a l

/-- The storage layer's `sort` on a query result: a stable sort by the
requested key, here realised as insertion sort. -/
def sortByLe (le : α → α → Bool) (l : List α) : List α :=
  l.foldr (insertSorted le) []

/-- The `getShows` handler: all shows with `showDateTime >= now`, each
populated with its movie (Mongoose shares one populated instance per
distinct id, so set membership coincides with value equality of the looked
up record), sorted by `showDateTime` ascending, deduplicated via `new Set`.
A dangling movie reference populates to `none` (null). -/
def getShows (db : DB) (now : Int) : List (Option Movie) :=
  let upcoming :=
    sortByLe (fun a b => decide (a.showDateTime ≤ b.showDateTime))
      (db.shows.filter (fun s => decide (now ≤ s.showDateTime)))
  jsSetOfList (upcoming.map (fun s => db.movies.find? (fun m => m._id == s.movie)))

/-! ## getShow (lines 145-167) -/

/-- The body of the `forEach` on line 154-160: push `(showDateTime, showId)`
onto the bucket of the show's UTC calendar day, creating the bucket at the
end of the key order on first use (JS object string keys preserve insertion
order). -/
def bucketPush (m : List (Int × List α)) (k : Int) (x : α) : List (Int × List α) :=
  if (m.find? (fun p => p.1 == k)).isSome then
    m.map (fun p => if p.1 == k then (p.1, p.2 ++ [x]) else p)
  else
    m ++ [(k, [x])]

/-- The `getShow` handler for a movie id: the movie record and the future
shows of that movie grouped into `dateTime` buckets keyed by the UTC date
portion (`toISOString().split("T")[0]`, embedded as the UTC day number),
each bucket holding `{time, showId}` pairs in query-result order. -/
def getShowResp (db : DB) (now : Int) (movieId : String) :
    Option Movie × List (Int × List (Int × Nat)) :=
  let shows := db.shows.filter
    (fun s => s.movie == movieId && decide (now ≤ s.showDateTime))
  let movie := db.movies.find? (fun m => m._id == movieId)
  (movie,
    shows.foldl (fun m s => bucketPush m (utcDay s.showDateTime) (s.showDateTime, s._id)) [])

/-! ## Sample data for concrete instantiations -/

def sampleMovie : Movie :=
  { _id := "m1", title := "Sample", overview := "o", poster_path := "p",
    backdrop_path := "b", genres := [], casts := [], release_date := "2024-01-01",
    original_language := "en", tagline := "", vote_average := "7", runtime := "120" }

def sampleShow : ShowRec :=
  { _id := 0, movie := "m1", showDateTime := 100, showPrice := 5, occupiedSeats := [] }

def sampleDB : DB := { movies := [sampleMovie], shows := [] }

def sampleInput : List ShowInputEntry :=
  [{ date := "2024-05-01", time := ["10:00", "14:00"] }]

def sampleDetails : TmdbDetails :=
  { title := "Sample", overview := "o", poster_path := "p", backdrop_path := "b",
    genres := [], release_date := "2024-01-01", original_language := "en",
    tagline := none, vote_average := "7", runtime := "120" }

def sampleCredits : TmdbCredits := { cast := [] }

/-- An environment in which the metadata provider is down. -/
def envDown : Env :=
  { fetchDetails := fun _ => .error "boom", fetchCredits := fun _ => .error "boom" }

/-- An environment in which both fetches succeed. -/
def envUp : Env :=
  { fetchDetails := fun _ => .ok sampleDetails, fetchCredits := fun _ => .ok sampleCredits }

end Quickshow

namespace Quickshow

/-! ## Helper lemmas -/

theorem addShowInsertPhase_frame (db : DB) (mid : String) (price : Int)
    (si : List ShowInputEntry) (calls : Nat) :
    (addShowInsertPhase db mid si price calls).1.tmdbCalls = calls ∧
    (addShowInsertPhase db mid si price calls).2.movies = db.movies := by
  unfold addShowInsertPhase
  split
  · split <;> exact ⟨rfl, rfl⟩
  · exact ⟨rfl, rfl⟩

theorem mem_expandShows {mid : String} {price : Int} {si : List ShowInputEntry}
    {p : PendingShow} :
    p ∈ expandShows mid price si ↔
      ∃ e, e ∈ si ∧ ∃ t, t ∈ e.time ∧
        ({ movie := mid, showDateTime := jsParseDateTime (e.date ++ "T" ++ t),
           showPrice := price, occupiedSeats := [] } : PendingShow) = p := by
  simp [expandShows]

theorem length_expandShows (mid : String) (price : Int) (si : List ShowInputEntry) :
    (expandShows mid price si).length = (si.map (fun e => e.time.length)).sum := by
  simp [expandShows, Function.comp_def]

theorem addShowInsertPhase_spec (db : DB) (mid : String) (price : Int)
    (si : List ShowInputEntry) (calls : Nat)
    (hvalid : ∀ e ∈ si, ∀ t ∈ e.time, (jsParseDateTime (e.date ++ "T" ++ t)).isSome = true) :
    ∃ created : List ShowRec,
      (addShowInsertPhase db mid si price calls).2.shows = db.shows ++ created ∧
      (addShowInsertPhase db mid si price calls).1.success = true ∧
      created.length = (si.map (fun e => e.time.length)).sum ∧
      ∀ s ∈ created, s.movie = mid ∧ s.showPrice = price ∧ s.occupiedSeats = [] ∧
        ∃ e, e ∈ si ∧ ∃ t, t ∈ e.time ∧
          jsParseDateTime (e.date ++ "T" ++ t) = some s.showDateTime := by
  have hall : (expandShows mid price si).all (fun d => d.showDateTime.isSome) = true := by
    rw [List.all_eq_true]
    intro p hp
    rcases mem_expandShows.mp hp with ⟨e, he, t, ht, hpe⟩
    rw [← hpe]
    exact hvalid e he t ht
  refine ⟨(expandShows mid price si).enum.map (persistShow db.shows.length), ?_, ?_, ?_, ?_⟩
  case refine_4 =>
    intro s hs
    rcases List.mem_map.mp hs with ⟨pr, hpr, hps⟩
    rcases pr with ⟨i, p⟩
    rcases List.mem_enum hpr with ⟨hi, hp⟩
    have hsnd : p ∈ expandShows mid price si := by
      rw [hp]
      exact List.getElem_mem _
    rcases mem_expandShows.mp hsnd with ⟨e, he, t, ht, hpe⟩
    rcases Option.isSome_iff_exists.mp (hvalid e he t ht) with ⟨v, hv⟩
    subst hpe
    refine ⟨?_, ?_, ?_, e, he, t, ht, ?_⟩
    · rw [← hps]
      rfl
    · rw [← hps]
      rfl
    · rw [← hps]
      rfl
    · rw [← hps]
      simp [persistShow, hv]
  · by_cases hlen : (expandShows mid price si).length > 0
    · unfold addShowInsertPhase
      rw [if_pos hlen]
      unfold insertMany
      rw [if_pos hall]
    · have hnil : expandShows mid price si = [] :=
        List.length_eq_zero.mp (by omega)
      unfold addShowInsertPhase
      rw [if_neg hlen, hnil]
      simp
  · by_cases hlen : (expandShows mid price si).length > 0
    · unfold addShowInsertPhase
      rw [if_pos hlen]
      unfold insertMany
      rw [if_pos hall]
    · unfold addShowInsertPhase
      rw [if_neg hlen]
  · rw [List.length_map, List.enum_length, length_expandShows]

/-! ## Claims -/

/-- Claim C2: a call to `addShow` in which any of `movieId`, `showsInput`
or `showPrice` is absent or falsy returns the 400 validation failure and
leaves both stores unchanged. -/
theorem addShow_missing_fields (env : Env) (db : DB) (req : AddShowReq)
    (h : (strFalsy req.movieId || req.showsInput.isNone || intFalsy req.showPrice) = true) :
    addShow env db req =
      ({ status := 400, success := false,
         message := "Missing required fields (movieId, showsInput, showPrice)",
         tmdbCalls := 0 }, db) := by
  unfold addShow
  rw [if_pos h]

/-- Concrete instantiation of the C2 theorem: the all-fields-absent request. -/
theorem addShow_missing_fields_case :
    (strFalsy (none : Option String) || (none : Option (List ShowInputEntry)).isNone
        || intFalsy (none : Option Int)) = true ∧
    addShow envDown sampleDB { movieId := none, showsInput := none, showPrice := none } =
      ({ status := 400, success := false,
         message := "Missing required fields (movieId, showsInput, showPrice)",
         tmdbCalls := 0 }, sampleDB) :=
  ⟨by decide, addShow_missing_fields envDown sampleDB _ (by decide)⟩

/-- Claim C7: the backoff delay before retry attempt n is n * 1000
milliseconds, a linear schedule (constant 1000 ms increments): 1 s, 2 s,
3 s. -/
theorem retryDelay_linear :
    (∀ n, retryDelay n = n * 1000) ∧
    (∀ n, retryDelay (n + 1) = retryDelay n + 1000) ∧
    retryDelay 1 = 1000 ∧ retryDelay 2 = 2000 ∧ retryDelay 3 = 3000 := by
  refine ⟨fun n => rfl, fun n => ?_, rfl, rfl, rfl⟩
  simp [retryDelay, Nat.succ_mul]

/-- Claim C3: when a movie with the given id is already stored, `addShow`
makes no call to the external metadata client and leaves the movie
collection unchanged. -/
theorem addShow_existing_movie_frame (env : Env) (db : DB) (req : AddShowReq)
    (mid : String) (hmid : req.movieId = some mid)
    (hfound : (db.movies.find? (fun m => m._id == mid)).isSome = true) :
    (addShow env db req).1.tmdbCalls = 0 ∧ (addShow env db req).2.movies = db.movies := by
  unfold addShow
  split
  · exact ⟨rfl, rfl⟩
  · rw [hmid]
    simp only [Option.getD_some]
    rcases hsome : db.movies.find? (fun m => m._id == mid) with _ | m
    · rw [hsome] at hfound
      simp at hfound
    · rw [hsome]
      exact addShowInsertPhase_frame db mid _ _ 0

/-- Concrete instantiation of the C3 theorem: the movie is in the store. -/
theorem addShow_existing_movie_frame_case :
    (addShow envDown sampleDB
        { movieId := some "m1", showsInput := some [], showPrice := some 200 }).1.tmdbCalls = 0 ∧
    (addShow envDown sampleDB
        { movieId := some "m1", showsInput := some [], showPrice := some 200 }).2.movies
      = sampleDB.movies :=
  addShow_existing_movie_frame envDown sampleDB _ "m1" rfl (by decide)

/-- Claim C4: when the movie is absent and either external fetch fails, the
whole `addShow` call fails and the state is unchanged (no partial Movie, no
Show). -/
theorem addShow_fetch_failure (env : Env) (db : DB) (req : AddShowReq)
    (habs : db.movies.find? (fun m => m._id == req.movieId.getD "") = none)
    (hfail : (∃ e, env.fetchDetails (req.movieId.getD "") = .error e) ∨
             (∃ e, env.fetchCredits (req.movieId.getD "") = .error e)) :
    (addShow env db req).1.success = false ∧ (addShow env db req).2 = db := by
  unfold addShow
  split
  · exact ⟨rfl, rfl⟩
  · rw [habs]
    rcases hd : env.fetchDetails (req.movieId.getD "") with e | d
    · exact ⟨rfl, rfl⟩
    · rcases hc : env.fetchCredits (req.movieId.getD "") with e | c
      · exact ⟨rfl, rfl⟩
      · rcases hfail with ⟨e, he⟩ | ⟨e, he⟩
        · rw [hd] at he
          cases he
        · rw [hc] at he
          cases he

/-- Claim C1: for a valid `showsInput` (D dates, T_i times for date i, every
combined date-time string well formed) and a call that passes validation and
whose movie-ensure phase succeeds, `addShow` appends exactly sum of T_i Show
records to the show store, each with the supplied movie id and price, an
empty seat map, and a `showDateTime` equal to the parse of its entry's date
combined with its time string. -/
theorem addShow_creates_shows (env : Env) (db : DB) (mid : String) (price : Int)
    (si : List ShowInputEntry)
    (hmid : mid ≠ "") (hprice : price ≠ 0)
    (hmovie : (db.movies.find? (fun m => m._id == mid)).isSome = true ∨
      ((∃ d, env.fetchDetails mid = .ok d) ∧ (∃ c, env.fetchCredits mid = .ok c)))
    (hvalid : ∀ e ∈ si, ∀ t ∈ e.time, (jsParseDateTime (e.date ++ "T" ++ t)).isSome = true) :
    ∃ created : List ShowRec,
      (addShow env db { movieId := some mid, showsInput := some si, showPrice := some price }).2.shows
          = db.shows ++ created ∧
      (addShow env db { movieId := some mid, showsInput := some si, showPrice := some price }).1.success
          = true ∧
      created.length = (si.map (fun e => e.time.length)).sum ∧
      ∀ s ∈ created, s.movie = mid ∧ s.showPrice = price ∧ s.occupiedSeats = [] ∧
        ∃ e, e ∈ si ∧ ∃ t, t ∈ e.time ∧
          jsParseDateTime (e.date ++ "T" ++ t) = some s.showDateTime := by
  unfold addShow
  rw [if_neg (by simp [strFalsy, intFalsy, hmid, hprice])]
  simp only [Option.getD_some]
  rcases hsome : db.movies.find? (fun m => m._id == mid) with _ | m
  · rcases hmovie with hiss | ⟨⟨d, hd⟩, ⟨c, hc⟩⟩
    · rw [hsome] at hiss
      simp at hiss
    · rw [hsome, hd, hc]
      exact addShowInsertPhase_spec _ mid price si 2 hvalid
  · rw [hsome]
    exact addShowInsertPhase_spec db mid price si 0 hvalid

/-- Concrete instantiation of the C1 theorem: one date with two times for a
movie already in the store. -/
theorem addShow_creates_shows_case :
    ∃ created : List ShowRec,
      (addShow envDown sampleDB
          { movieId := some "m1", showsInput := some sampleInput,
            showPrice := some 200 }).2.shows = sampleDB.shows ++ created ∧
      (addShow envDown sampleDB
          { movieId := some "m1", showsInput := some sampleInput,
            showPrice := some 200 }).1.success = true ∧
      created.length = (sampleInput.map (fun e => e.time.length)).sum ∧
      ∀ s ∈ created, s.movie = "m1" ∧ s.showPrice = 200 ∧ s.occupiedSeats = [] ∧
        ∃ e, e ∈ sampleInput ∧ ∃ t, t ∈ e.time ∧
          jsParseDateTime (e.date ++ "T" ++ t) = some s.showDateTime :=
  addShow_creates_shows envDown sampleDB "m1" 200 sampleInput
    (by decide) (by decide) (Or.inl (by decide)) (by decide)

theorem addShowInsertPhase_invalid (db : DB) (mid : String) (price : Int)
    (si : List ShowInputEntry) (calls : Nat) (entry : ShowInputEntry) (t : String)
    (he : entry ∈ si) (ht : t ∈ entry.time)
    (hbad : jsParseDateTime (entry.date ++ "T" ++ t) = none) :
    (addShowInsertPhase db mid si price calls).1.success = false ∧
    (addShowInsertPhase db mid si price calls).2.shows = db.shows := by
  have hpmem : ({ movie := mid, showDateTime := jsParseDateTime (entry.date ++ "T" ++ t), showPrice := price, occupiedSeats := [] } : PendingShow) ∈ expandShows mid price si :=
    mem_expandShows.mpr ⟨entry, he, t, ht, rfl⟩
  have hall : (expandShows mid price si).all (fun d => d.showDateTime.isSome) = false := by
    rcases h : (expandShows mid price si).all (fun d => d.showDateTime.isSome) with _ | _
    · rfl
    · have := List.all_eq_true.mp h _ hpmem
      rw [hbad] at this
      simp at this
  have hlen : (expandShows mid price si).length > 0 :=
    List.length_pos.mpr (List.ne_nil_of_mem hpmem)
  unfold addShowInsertPhase
  rw [if_pos hlen]
  unfold insertMany
  rw [if_neg (by rw [hall]; exact Bool.false_ne_true)]
  exact ⟨rfl, rfl⟩

/-- Claim C9: when `addShow` is given a time string whose combination with
its entry's date is malformed (Invalid Date), the operation reports an error
(`success = false`) and persists no Show: the show store is unchanged, so
every persisted Show keeps a valid `showDateTime`. -/
theorem addShow_malformed_time (env : Env) (db : DB) (req : AddShowReq)
    (si : List ShowInputEntry) (entry : ShowInputEntry) (t : String)
    (hsi : req.showsInput = some si) (he : entry ∈ si) (ht : t ∈ entry.time)
    (hbad : jsParseDateTime (entry.date ++ "T" ++ t) = none) :
    (addShow env db req).1.success = false ∧ (addShow env db req).2.shows = db.shows := by
  unfold addShow
  split
  · exact ⟨rfl, rfl⟩
  · rw [hsi]
    simp only [Option.getD_some]
    rcases hsome : db.movies.find? (fun m => m._id == req.movieId.getD "") with _ | m
    · rw [hsome]
      rcases hd : env.fetchDetails (req.movieId.getD "") with e | d
      · exact ⟨rfl, rfl⟩
      · rcases hc : env.fetchCredits (req.movieId.getD "") with e | c
        · exact ⟨rfl, rfl⟩
        · exact addShowInsertPhase_invalid _ _ _ _ 2 entry t he ht hbad
    · rw [hsome]
      exact addShowInsertPhase_invalid db _ _ _ 0 entry t he ht hbad

/-- Concrete instantiation of the C9 theorem: time string "99:99". -/
theorem addShow_malformed_time_case :
    (addShow envDown sampleDB
        { movieId := some "m1",
          showsInput := some [{ date := "2024-05-01", time := ["99:99"] }],
          showPrice := some 200 }).1.success = false ∧
    (addShow envDown sampleDB
        { movieId := some "m1",
          showsInput := some [{ date := "2024-05-01", time := ["99:99"] }],
          showPrice := some 200 }).2.shows = sampleDB.shows :=
  addShow_malformed_time envDown sampleDB _ _
    { date := "2024-05-01", time := ["99:99"] } "99:99" rfl (by decide) (by decide) (by decide)

/-- Claim C10 counterexample: with truthy `movieId` and `showPrice` and an
empty `showsInput`, a call in which the movie is absent and the provider is
down does NOT return success (the fetch failure is hit before the empty
expansion), refuting the unconditional claim. -/
theorem addShow_empty_input_failure :
    (addShow envDown { movies := [], shows := [] }
        { movieId := some "m1", showsInput := some [], showPrice := some 200 }).1.success
      = false := by decide

/-- Claim C10 (amended): with truthy `movieId` and `showPrice`, an empty
`showsInput`, and a movie-ensure phase that succeeds (movie already stored,
or both fetches succeed), the call passes validation (responds 200, not
400), creates zero Show records, and returns success. -/
theorem addShow_empty_input (env : Env) (db : DB) (mid : String) (price : Int)
    (hmid : mid ≠ "") (hprice : price ≠ 0)
    (hmovie : (db.movies.find? (fun m => m._id == mid)).isSome = true ∨
      ((∃ d, env.fetchDetails mid = .ok d) ∧ (∃ c, env.fetchCredits mid = .ok c))) :
    (addShow env db { movieId := some mid, showsInput := some [], showPrice := some price }).1.status
        = 200 ∧
    (addShow env db { movieId := some mid, showsInput := some [], showPrice := some price }).1.success
        = true ∧
    (addShow env db { movieId := some mid, showsInput := some [], showPrice := some price }).2.shows
        = db.shows := by
  unfold addShow
  rw [if_neg (by simp [strFalsy, intFalsy, hmid, hprice])]
  simp only [Option.getD_some]
  rcases hsome : db.movies.find? (fun m => m._id == mid) with _ | m
  · rcases hmovie with hiss | ⟨⟨d, hd⟩, ⟨c, hc⟩⟩
    · rw [hsome] at hiss
      simp at hiss
    · rw [hsome, hd, hc]
      exact ⟨rfl, rfl, rfl⟩
  · rw [hsome]
    exact ⟨rfl, rfl, rfl⟩

/-- Concrete instantiation of the amended C10 theorem: movie already
stored. -/
theorem addShow_empty_input_case :
    (addShow envDown sampleDB
        { movieId := some "m1", showsInput := some [], showPrice := some 200 }).1.status = 200 ∧
    (addShow envDown sampleDB
        { movieId := some "m1", showsInput := some [], showPrice := some 200 }).1.success = true ∧
    (addShow envDown sampleDB
        { movieId := some "m1", showsInput := some [], showPrice := some 200 }).2.shows
      = sampleDB.shows :=
  addShow_empty_input envDown sampleDB "m1" 200 (by decide) (by decide) (Or.inl (by decide))

/-- Claim C8 counterexample: a 501 response satisfies the code's
`retryCondition` (via the axios-retry `isRetryableError` 5xx range) although
501 is not in the spec's retry set {429, 500, 502, 503, 504} and is not a
network-level error, refuting the "exactly" claim. -/
theorem retryCondition_beyond_claimed_set :
    retryCondition { code := none, response := some 501 } = true ∧
    claimedRetrySet { code := none, response := some 501 } = false := by decide

/-- Claim C8 (amended): the client retries up to 3 times, and (for errors
whose code can be `ECONNABORTED` only when no response arrived, as produced
by axios) the retry condition holds exactly for no-response network-level
errors other than timeout/abort, for `ECONNRESET`, and for HTTP responses
with status 429 or any 5xx status 500-599; in particular no retry happens
for a 404 or any other 4xx besides 429. -/
theorem retryCondition_characterization :
    axiosRetryRetries = 3 ∧
    ∀ e : AxiosError, (e.code = some "ECONNABORTED" → e.response = none) →
      (retryCondition e = true ↔
        ((e.response = none ∧ e.code ≠ some "ECONNABORTED")
          ∨ e.code = some "ECONNRESET"
          ∨ (∃ st, e.response = some st ∧ (st = 429 ∨ (500 ≤ st ∧ st ≤ 599))))) := by
  refine ⟨rfl, ?_⟩
  rintro ⟨c, r⟩ hyp
  cases r with
  | none =>
    by_cases hc : c = some "ECONNABORTED"
    · subst hc
      decide
    · have hcE : (c == some "ECONNABORTED") = false := by
        simpa using hc
      simp [retryCondition, isRetryableError, hcE, hc]
  | some st =>
    have hc : c ≠ some "ECONNABORTED" := by
      intro h
      cases hyp h
    have hcE : (c == some "ECONNABORTED") = false := by
      simpa using hc
    by_cases hcR : c = some "ECONNRESET"
    · simp [retryCondition, hcR]
    · have hcRE : (c == some "ECONNRESET") = false := by
        simpa using hcR
      simp [retryCondition, isNetworkError, isRetryableError, hcE, hcRE, hcR]
      omega

end Quickshow

namespace Quickshow

theorem mem_of_mem_jsSetAux [DecidableEq α] {seen l : List α} {x : α}
    (h : x ∈ jsSetAux seen l) : x ∈ l := by
  induction l generalizing seen with
  | nil => simp [jsSetAux] at h
  | cons a l ih =>
    rw [jsSetAux] at h
    split at h
    · exact List.mem_cons_of_mem a (ih h)
    · rcases List.mem_cons.mp h with h1 | h2
      · exact h1 ▸ List.mem_cons_self a l
      · exact List.mem_cons_of_mem a (ih h2)

theorem notMem_seen_of_mem_jsSetAux [DecidableEq α] {seen l : List α} {x : α}
    (h : x ∈ jsSetAux seen l) : x ∉ seen := by
  induction l generalizing seen with
  | nil => simp [jsSetAux] at h
  | cons a l ih =>
    rw [jsSetAux] at h
    split at h
    · exact ih h
    · rcases List.mem_cons.mp h with h1 | h2
      · subst h1
        assumption
      · intro hx
        exact (ih h2) (List.mem_cons_of_mem a hx)

theorem nodup_jsSetAux [DecidableEq α] (seen l : List α) : (jsSetAux seen l).Nodup := by
  induction l generalizing seen with
  | nil => simp [jsSetAux]
  | cons a l ih =>
    rw [jsSetAux]
    split
    · exact ih _
    · rw [List.nodup_cons]
      exact ⟨fun hmem => (notMem_seen_of_mem_jsSetAux hmem) (List.mem_cons_self a seen), ih _⟩

theorem insertSorted_perm (le : α → α → Bool) (a : α) (l : List α) :
    List.Perm (insertSorted le a l) (a :: l) := by
  induction l with
  | nil => exact List.Perm.refl _
  | cons b l ih =>
    rw [insertSorted]
    split
    · exact List.Perm.refl _
    · exact List.Perm.trans (List.Perm.cons b ih) (List.Perm.swap a b l)

theorem sortByLe_perm (le : α → α → Bool) (l : List α) : List.Perm (sortByLe le l) l := by
  induction l with
  | nil => exact List.Perm.refl _
  | cons a l ih => exact List.Perm.trans (insertSorted_perm le a _) (List.Perm.cons a ih)

theorem mem_getShows (db : DB) (now : Int) {x : Option Movie} (hx : x ∈ getShows db now) :
    ∃ s : ShowRec, s ∈ db.shows ∧ now ≤ s.showDateTime ∧
      x = db.movies.find? (fun m => m._id == s.movie) := by
  have hx2 : x ∈ (sortByLe (fun a b => decide (a.showDateTime ≤ b.showDateTime))
      (db.shows.filter (fun s => decide (now ≤ s.showDateTime)))).map
        (fun s => db.movies.find? (fun m => m._id == s.movie)) :=
    mem_of_mem_jsSetAux hx
  rcases List.mem_map.mp hx2 with ⟨s, hs, hxs⟩
  have hs2 : s ∈ db.shows.filter (fun s => decide (now ≤ s.showDateTime)) :=
    (sortByLe_perm _ _).mem_iff.mp hs
  rcases List.mem_filter.mp hs2 with ⟨hsdb, hsle⟩
  exact ⟨s, hsdb, by simpa using hsle, hxs.symm⟩

/-- Claim C5: the list returned by `getShows` never contains two movies with
the same identifier, and every movie in it is referenced by at least one
show with `showDateTime >= now`. -/
theorem getShows_distinct_upcoming (db : DB) (now : Int) :
    (∀ m : Movie, some m ∈ getShows db now →
      ∃ s : ShowRec, s ∈ db.shows ∧ now ≤ s.showDateTime ∧ s.movie = m._id) ∧
    (getShows db now).Pairwise (fun a b =>
      ∀ m1 m2 : Movie, a = some m1 → b = some m2 → m1._id ≠ m2._id) := by
  constructor
  · intro m hm
    rcases mem_getShows db now hm with ⟨s, hsdb, hsle, hfind⟩
    refine ⟨s, hsdb, hsle, ?_⟩
    have hpred := List.find?_some hfind.symm
    have : m._id = s.movie := by simpa using hpred
    exact this.symm
  · have hnd : (getShows db now).Nodup := nodup_jsSetAux _ _
    refine List.Pairwise.imp_of_mem ?_ hnd
    intro a b ha hb hne m1 m2 ha1 hb1 hid
    rcases mem_getShows db now ha with ⟨s1, _, _, hf1⟩
    rcases mem_getShows db now hb with ⟨s2, _, _, hf2⟩
    have m1id : m1._id = s1.movie := by
      have e1 : db.movies.find? (fun m => m._id == s1.movie) = some m1 := by
        rw [← hf1, ha1]
      simpa using List.find?_some e1
    have m2id : m2._id = s2.movie := by
      have e2 : db.movies.find? (fun m => m._id == s2.movie) = some m2 := by
        rw [← hf2, hb1]
      simpa using List.find?_some e2
    have key : db.movies.find? (fun m => m._id == s1.movie)
        = db.movies.find? (fun m => m._id == s2.movie) := by
      rw [← m1id, ← m2id, hid]
    exact hne (by rw [hf1, key, ← hf2])

/-- Concrete instantiation of the C5 theorem: one future show referencing
the stored movie. -/
theorem getShows_distinct_upcoming_case :
    ∃ s : ShowRec, s ∈ ({ movies := [sampleMovie], shows := [sampleShow] } : DB).shows ∧
      (0 : Int) ≤ s.showDateTime ∧ s.movie = sampleMovie._id :=
  (getShows_distinct_upcoming { movies := [sampleMovie], shows := [sampleShow] } 0).1
    sampleMovie (by decide)

/-- Concrete instantiation of the amended C8 theorem: a plain 404 response. -/
theorem retryCondition_characterization_case :
    retryCondition { code := none, response := some 404 } = true ↔
      (((some 404 : Option Nat) = none ∧ (none : Option String) ≠ some "ECONNABORTED")
        ∨ (none : Option String) = some "ECONNRESET"
        ∨ (∃ st, (some 404 : Option Nat) = some st
            ∧ (st = 429 ∨ (500 ≤ st ∧ st ≤ 599)))) :=
  retryCondition_characterization.2 { code := none, response := some 404 } (by simp)

/-- Concrete instantiation of the C4 theorem: empty store, provider down. -/
theorem addShow_fetch_failure_case :
    (addShow envDown { movies := [], shows := [] }
        { movieId := some "m1", showsInput := some [], showPrice := some 200 }).1.success = false ∧
    (addShow envDown { movies := [], shows := [] }
        { movieId := some "m1", showsInput := some [], showPrice := some 200 }).2
      = { movies := [], shows := [] } :=
  addShow_fetch_failure envDown _ _ (by decide) (Or.inl ⟨"boom", rfl⟩)

theorem bucketFold_inv {α β : Type} (key : α → Int) (val : α → β) (l : List α) :
    (((l.foldl (fun m x => bucketPush m (key x) (val x)) []).map Prod.fst).Nodup) ∧
    (∀ p ∈ l.foldl (fun m x => bucketPush m (key x) (val x)) [],
      p.2 = (l.filter (fun y => key y == p.1)).map val) ∧
    (∀ y ∈ l, key y ∈ (l.foldl (fun m x => bucketPush m (key x) (val x)) []).map Prod.fst) := by
  induction l using List.reverseRecOn with
  | nil => exact ⟨List.nodup_nil, by simp, by simp⟩
  | append_singleton l x ih =>
    obtain ⟨ihk, ihc, ihm⟩ := ih
    rw [List.foldl_append]
    simp only [List.foldl_cons, List.foldl_nil]
    by_cases hfound :
        ((l.foldl (fun m x => bucketPush m (key x) (val x)) []).find?
          (fun p => p.1 == key x)).isSome = true
    · obtain ⟨p0, hp0⟩ := Option.isSome_iff_exists.mp hfound
      have hp0mem := List.mem_of_find?_eq_some hp0
      have hp0key : p0.1 = key x := by simpa using List.find?_some hp0
      have hB' : bucketPush (l.foldl (fun m x => bucketPush m (key x) (val x)) [])
            (key x) (val x)
          = (l.foldl (fun m x => bucketPush m (key x) (val x)) []).map
              (fun p => if p.1 == key x then (p.1, p.2 ++ [val x]) else p) := by
        rw [bucketPush, if_pos hfound]
      have hkeys : ((l.foldl (fun m x => bucketPush m (key x) (val x)) []).map
            (fun p => if p.1 == key x then (p.1, p.2 ++ [val x]) else p)).map Prod.fst
          = (l.foldl (fun m x => bucketPush m (key x) (val x)) []).map Prod.fst := by
        rw [List.map_map]
        apply List.map_congr_left
        intro p hp
        by_cases h : (p.1 == key x) = true <;> simp [Function.comp, h]
      refine ⟨?_, ?_, ?_⟩
      · rw [hB', hkeys]
        exact ihk
      · intro p' hp'
        rw [hB'] at hp'
        rcases List.mem_map.mp hp' with ⟨p, hp, hup⟩
        by_cases h : (p.1 == key x) = true
        · have hpx : p.1 = key x := by simpa using h
          rw [if_pos h] at hup
          subst hup
          show p.2 ++ [val x] = ((l ++ [x]).filter (fun y => key y == p.1)).map val
          rw [List.filter_append, List.map_append, ← ihc p hp]
          simp [hpx]
        · rw [if_neg h] at hup
          subst hup
          show p.2 = ((l ++ [x]).filter (fun y => key y == p.1)).map val
          rw [List.filter_append, List.map_append, ← ihc p hp]
          have hne2 : (key x == p.1) = false := by
            rw [beq_eq_false_iff_ne]
            intro hc
            exact absurd (by simp [hc]) h
          simp [hne2]
      · intro y hy
        rcases List.mem_append.mp hy with hyl | hyx
        · rw [hB', hkeys]
          exact ihm y hyl
        · rw [List.mem_singleton] at hyx
          subst hyx
          rw [hB', hkeys, ← hp0key]
          exact List.mem_map_of_mem Prod.fst hp0mem
    · have hnone : (l.foldl (fun m x => bucketPush m (key x) (val x)) []).find?
          (fun p => p.1 == key x) = none :=
        Option.not_isSome_iff_eq_none.mp hfound
      have hB' : bucketPush (l.foldl (fun m x => bucketPush m (key x) (val x)) [])
            (key x) (val x)
          = (l.foldl (fun m x => bucketPush m (key x) (val x)) []) ++ [(key x, [val x])] := by
        rw [bucketPush, if_neg hfound]
      have hknotin : key x ∉
          (l.foldl (fun m x => bucketPush m (key x) (val x)) []).map Prod.fst := by
        intro hk
        rcases List.mem_map.mp hk with ⟨p, hp, hpk⟩
        exact (List.find?_eq_none.mp hnone p hp) (by simp [hpk])
      refine ⟨?_, ?_, ?_⟩
      · rw [hB', List.map_append, List.nodup_append]
        refine ⟨ihk, by simp, ?_⟩
        simp only [List.map_cons, List.map_nil]
        intro k hk hk2
        rw [List.mem_singleton] at hk2
        subst hk2
        exact hknotin hk
      · intro p' hp'
        rw [hB'] at hp'
        rcases List.mem_append.mp hp' with hpB | hpnew
        · have hne : (key x == p'.1) = false := by
            rw [beq_eq_false_iff_ne]
            intro hc
            exact hknotin (hc ▸ List.mem_map_of_mem Prod.fst hpB)
          rw [List.filter_append, List.map_append, ← ihc p' hpB]
          simp [hne]
        · rw [List.mem_singleton] at hpnew
          subst hpnew
          show [val x] = ((l ++ [x]).filter (fun y => key y == key x)).map val
          have hfl : List.filter (fun y => key y == key x) l = [] := by
            rw [List.filter_eq_nil_iff]
            intro y hy hbeq
            have hkey : key y = key x := by simpa using hbeq
            exact hknotin (hkey ▸ ihm y hy)
          rw [List.filter_append, hfl]
          simp
      · intro y hy
        rcases List.mem_append.mp hy with hyl | hyx
        · rw [hB', List.map_append]
          exact List.mem_append_left _ (ihm y hyl)
        · rw [List.mem_singleton] at hyx
          subst hyx
          rw [hB', List.map_append]
          apply List.mem_append_right
          simp

/-- Claim C6: `getShow` places every future show of the requested movie into
exactly one `dateTime` bucket, the bucket keyed by the UTC date portion
(`utcDay`) of that show's `showDateTime`, and into no bucket with any other
key; bucket keys are pairwise distinct. -/
theorem getShow_buckets (db : DB) (now : Int) (movieId : String) (s : ShowRec)
    (hs : s ∈ db.shows) (hm : s.movie = movieId) (hfut : now ≤ s.showDateTime) :
    (∃ lk, (utcDay s.showDateTime, lk) ∈ (getShowResp db now movieId).2 ∧
       (s.showDateTime, s._id) ∈ lk) ∧
    (∀ k lk, (k, lk) ∈ (getShowResp db now movieId).2 →
       (s.showDateTime, s._id) ∈ lk → k = utcDay s.showDateTime) ∧
    ((getShowResp db now movieId).2.map Prod.fst).Nodup := by
  obtain ⟨hk, hch, hcomp⟩ := bucketFold_inv (fun q : ShowRec => utcDay q.showDateTime)
    (fun q : ShowRec => (q.showDateTime, q._id))
    (db.shows.filter (fun q => q.movie == movieId && decide (now ≤ q.showDateTime)))
  have hsf : s ∈ db.shows.filter
      (fun q => q.movie == movieId && decide (now ≤ q.showDateTime)) := by
    rw [List.mem_filter]
    exact ⟨hs, by simp [hm, hfut]⟩
  refine ⟨?_, ?_, ?_⟩
  · rcases List.mem_map.mp (hcomp s hsf) with ⟨p, hp, hpk⟩
    refine ⟨p.2, ?_, ?_⟩
    · show (utcDay s.showDateTime, p.2) ∈
        (db.shows.filter (fun q => q.movie == movieId && decide (now ≤ q.showDateTime))).foldl
          (fun m q => bucketPush m (utcDay q.showDateTime) (q.showDateTime, q._id)) []
      rw [← hpk]
      exact hp
    · have h2 : p.2 = (List.filter
          (fun y => (fun q : ShowRec => utcDay q.showDateTime) y == p.1)
          (db.shows.filter (fun q => q.movie == movieId && decide (now ≤ q.showDateTime)))).map
            (fun q : ShowRec => (q.showDateTime, q._id)) := hch p hp
      rw [h2]
      apply List.mem_map_of_mem
      rw [List.mem_filter]
      exact ⟨hsf, by simp [hpk]⟩
  · intro k lk hklk hmem
    have h2 : lk = (List.filter
        (fun y => (fun q : ShowRec => utcDay q.showDateTime) y == k)
        (db.shows.filter (fun q => q.movie == movieId && decide (now ≤ q.showDateTime)))).map
          (fun q : ShowRec => (q.showDateTime, q._id)) := hch (k, lk) hklk
    rw [h2] at hmem
    rcases List.mem_map.mp hmem with ⟨q, hq, hqv⟩
    rcases List.mem_filter.mp hq with ⟨hq1, hq2⟩
    have hqd : q.showDateTime = s.showDateTime := congrArg Prod.fst hqv
    have hqk : utcDay q.showDateTime = k := by simpa using hq2
    rw [← hqk, hqd]
  · exact hk

/-- Concrete instantiation of the C6 theorem: one future show of the movie. -/
theorem getShow_buckets_case :
    (∃ lk, (utcDay sampleShow.showDateTime, lk) ∈
        (getShowResp { movies := [sampleMovie], shows := [sampleShow] } 0 "m1").2 ∧
       (sampleShow.showDateTime, sampleShow._id) ∈ lk) ∧
    (∀ k lk, (k, lk) ∈ (getShowResp { movies := [sampleMovie], shows := [sampleShow] } 0 "m1").2 →
       (sampleShow.showDateTime, sampleShow._id) ∈ lk → k = utcDay sampleShow.showDateTime) ∧
    (((getShowResp { movies := [sampleMovie], shows := [sampleShow] } 0 "m1").2.map
        Prod.fst).Nodup) :=
  getShow_buckets { movies := [sampleMovie], shows := [sampleShow] } 0 "m1" sampleShow
    (by decide) (by decide) (by decide)

end Quickshow
